import Mathlib

/-!
Shallow embedding of the video-processing worker (src/app.js, first server
variant, lines 1-680) and proofs about the spec's claims.

JavaScript dynamic values are modelled by the inductive `JVal`.  JSON numbers
are carried as rationals (`Rat`); the separate `nan` constructor stands for
the JS `NaN` produced by a failed `Number(...)` coercion.  JS arrays may carry
named properties in addition to their elements, so `arr` has a `props` field.
External collaborators (yt-dlp, ffmpeg, the speech-to-text and text-completion
services, and the built-in `JSON.parse`) are passed in as explicit oracle
parameters; everything that is code of the repository is translated directly.
-/

namespace VideoWorker

/-- Model of a JavaScript runtime value (the JSON fragment plus `undefined`,
`NaN`, and array properties). -/
inductive JVal where
  | null
  | undefined
  | nan
  | bool (b : Bool)
  | num (q : Rat)
  | str (s : String)
  | arr (elems : List JVal) (props : List (String × JVal))
  | obj (fields : List (String × JVal))

/-- JS truthiness: `null`, `undefined`, `NaN`, `false`, `0` and `""` are falsy;
every object and array is truthy. -/
def truthy : JVal → Bool
  | .null => false
  | .undefined => false
  | .nan => false
  | .bool b => b
  | .num q => q != 0
  | .str s => s != ""
  | .arr _ _ => true
  | .obj _ => true

/-- JS `a || b`: returns `a` when truthy, else `b`. -/
def jsOr (a b : JVal) : JVal := if truthy a then a else b

/-- JS `a ?? b`: returns `b` exactly when `a` is `null` or `undefined`. -/
def coalesce (a b : JVal) : JVal :=
  match a with
  | .null => b
  | .undefined => b
  | x => x

/-- `typeof x === 'object'` (true for objects, arrays and `null`). -/
def typeofIsObject : JVal → Bool
  | .null => true
  | .arr _ _ => true
  | .obj _ => true
  | _ => false

/-- `Array.isArray`. -/
def isArray : JVal → Bool
  | .arr _ _ => true
  | _ => false

/-- `typeof x === 'string'`. -/
def isString : JVal → Bool
  | .str _ => true
  | _ => false

/-- A value on which property assignment actually stores the property
(an object or an array). -/
def objLike : JVal → Bool
  | .arr _ _ => true
  | .obj _ => true
  | _ => false

/-- First-match lookup in an association list of fields. -/
def getAssoc : List (String × JVal) → String → Option JVal
  | [], _ => none
  | (k, v) :: rest, key => if k = key then some v else getAssoc rest key

/-- Replace the first binding of `key`, or append a new one. -/
def setAssoc : List (String × JVal) → String → JVal → List (String × JVal)
  | [], key, v => [(key, v)]
  | (k, w) :: rest, key, v =>
      if k = key then (key, v) :: rest else (k, w) :: setAssoc rest key v

/-- Property read `o[k]` (with optional-chaining semantics: reading from a
primitive, `null` or `undefined` yields `undefined`). -/
def getField (o : JVal) (k : String) : JVal :=
  match o with
  | .obj fs => (getAssoc fs k).getD .undefined
  | .arr _ ps => (getAssoc ps k).getD .undefined
  | _ => .undefined

/-- Property write `o[k] = v` (a silent no-op on primitives, as in non-strict
mode JS). -/
def setField (o : JVal) (k : String) (v : JVal) : JVal :=
  match o with
  | .obj fs => .obj (setAssoc fs k v)
  | .arr es ps => .arr es (setAssoc ps k v)
  | x => x

/-- Whether the property is actually stored on the value. -/
def hasField (o : JVal) (k : String) : Bool :=
  match o with
  | .obj fs => (getAssoc fs k).isSome
  | .arr _ ps => (getAssoc ps k).isSome
  | _ => false

/-- `Array.isArray(v) ? v : []` — the defensive array coercion used all over
the synthesizers and `normalizeForUI`. -/
def ensureArr (v : JVal) : JVal := if isArray v then v else .arr [] []

/-- Strict equality `v === "s"` against a string literal. -/
def isStrVal (v : JVal) (s : String) : Bool :=
  match v with
  | .str t => t == s
  | _ => false

/-- The characters JS `trim` and `Number` treat as whitespace (ASCII part). -/
def jsWsChar (c : Char) : Bool :=
  c == ' ' || c == '\t' || c == '\n' || c == '\r' || c == '\x0b' || c == '\x0c'

/-- ASCII lowercasing, modelling `String.prototype.toLowerCase`. -/
def jsLower (s : String) : String := String.mk (s.toList.map Char.toLower)

/-- `v.toLowerCase()` — defined only on strings; on any other value the JS
call throws a `TypeError`, modelled by `none`. -/
def jsToLowerString : JVal → Option String
  | .str s => some (jsLower s)
  | _ => none

/-- Does `hay` start with `needle`, character by character. -/
def beginsWithL : List Char → List Char → Bool
  | [], _ => true
  | _ :: _, [] => false
  | a :: as, b :: bs => a == b && beginsWithL as bs

/-- Substring test on character lists. -/
def containsSubL (needle : List Char) : List Char → Bool
  | [] => needle.isEmpty
  | c :: cs => beginsWithL needle (c :: cs) || containsSubL needle cs

/-- `s.includes(pat)`. -/
def jsIncludes (s pat : String) : Bool := containsSubL pat.toList s.toList

/-- Decimal digit run to a number; `none` when empty or a non-digit occurs. -/
def digitRun : List Char → Option Nat
  | [] => none
  | cs => cs.foldl (fun acc c =>
      acc.bind fun n => if c.isDigit then some (n * 10 + (c.toNat - 48)) else none)
      (some 0)

/-- JS `Number(string)`: trims whitespace, `""` gives `0`, an optionally
signed decimal integer parses, anything else is `NaN` (`none`).  Fractional,
hexadecimal and exponent literal forms are outside the value model (numbers
are carried as rationals, so no claim here depends on them). -/
def jsStringToNumber (s : String) : Option Rat :=
  let t := ((s.toList.dropWhile jsWsChar).reverse.dropWhile jsWsChar).reverse
  match t with
  | [] => some 0
  | '-' :: rest => (digitRun rest).map (fun n => -(n : Rat))
  | '+' :: rest => (digitRun rest).map (fun n => (n : Rat))
  | _ => (digitRun t).map (fun n => (n : Rat))

/-- Decimal rendering of a JSON number (integers render as in JS). -/
def ratToJsString (q : Rat) : String :=
  if q.den = 1 then toString q.num else toString q

mutual

/-- JS `String(v)` / `v.toString()` on the value model. -/
def jsToString : JVal → String
  | .null => "null"
  | .undefined => "undefined"
  | .nan => "NaN"
  | .bool b => if b then "true" else "false"
  | .num q => ratToJsString q
  | .str s => s
  | .arr es _ => jsArrItems es
  | .obj _ => "[object Object]"

/-- `Array.prototype.toString`: elements joined by `","`, with `null` and
`undefined` elements rendered empty. -/
def jsArrItems : List JVal → String
  | [] => ""
  | e :: rest =>
    let s := match e with
      | .null => ""
      | .undefined => ""
      | v => jsToString v
    match rest with
    | [] => s
    | _ :: _ => s ++ "," ++ jsArrItems rest

end

/-- JS `Number(v)` (`none` is `NaN`).  Arrays coerce through their string
form, objects give `NaN`. -/
def jsToNumber : JVal → Option Rat
  | .null => some 0
  | .undefined => none
  | .nan => none
  | .bool b => some (if b then 1 else 0)
  | .num q => some q
  | .str s => jsStringToNumber s
  | .arr es _ => jsStringToNumber (jsArrItems es)
  | .obj _ => none

/-- `Number(v)` as a value again, with `NaN` made explicit. -/
def numberOf (v : JVal) : JVal :=
  match jsToNumber v with
  | some q => .num q
  | none => .nan

/-- `str.indexOf(c)` (−1 when absent). -/
def jsIndexOf (cs : List Char) (c : Char) : Int :=
  match cs with
  | [] => -1
  | d :: rest =>
    if d == c then 0
    else
      let r := jsIndexOf rest c
      if r < 0 then -1 else r + 1

/-- `str.lastIndexOf(c)` (−1 when absent). -/
def jsLastIndexOf (cs : List Char) (c : Char) : Int :=
  let r := jsIndexOf cs.reverse c
  if r < 0 then -1 else (cs.length : Int) - 1 - r

-- ---------------- Video helpers (src/app.js lines 43-50) ----------------

/-- The platform decision chain of `detectPlatformFromUrl`, applied to the
already lowercased URL string. -/
def platformOf (u : String) : String :=
  if jsIncludes u "instagram.com" then "instagram"
  else if jsIncludes u "tiktok.com" then "tiktok"
  else if jsIncludes u "facebook.com" || jsIncludes u "fb.watch" || jsIncludes u "fb.com" then
    "facebook"
  else if jsIncludes u "youtube.com" || jsIncludes u "youtu.be" then "youtube"
  else "unknown"

/-- `detectPlatformFromUrl(url)`: `const u = (url || '').toLowerCase()` then
the substring chain.  `none` models the `TypeError` thrown when `url` is a
truthy non-string. -/
def detectPlatformFromUrl (url : JVal) : Option String :=
  (jsToLowerString (jsOr url (.str ""))).map platformOf

-- ------------- parseJsonFromContent (src/app.js lines 80-92) -------------

/-- The slice handed to `JSON.parse`: from the first `\x7b` to the last
`\x7d` when both exist in that order (tolerating surrounding prose), else the
whole content. -/
def jsonPayload (content : String) : String :=
  let cs := content.toList
  let first := jsIndexOf cs '\x7b'
  let last := jsLastIndexOf cs '\x7d'
  if first ≥ 0 && last > first then
    String.mk ((cs.drop first.toNat).take (last.toNat + 1 - first.toNat))
  else content

/-- `parseJsonFromContent(content, fallback)`: slice the payload, then
`JSON.parse`; the parse itself is the built-in, passed in as the oracle `jp`
(`none` = parse error, in which case the fallback is returned). -/
def parseJsonFromContent (jp : String → Option JVal) (content : String)
    (fallback : JVal) : JVal :=
  match jp (jsonPayload content) with
  | some v => v
  | none => fallback

-- ------------- analyzeContentType (src/app.js lines 434-471) -------------

/-- The defensive coercion `if (!obj || typeof obj !== 'object') obj = \x7b\x7d`
applied to the parsed value. -/
def coerceParsed (p : JVal) : JVal :=
  if truthy p && typeofIsObject p then p else .obj []

/-- The raw steps array read `Array.isArray(obj.steps) ? obj.steps : []`
(the `map` below iterates only the elements). -/
def stepsArrOf (d : JVal) : List JVal :=
  match getField d "steps" with
  | .arr es _ => es
  | _ => []

/-- One entry of the normalized `steps` array:
`{ step: Number(s?.step ?? i + 1), instruction: (s?.instruction || s?.<alt> || String(s || '')).toString() }`
(`alt` is `action` for recipes and `title` for tutorials). -/
def mkStepEntry (altKey : String) (i : Nat) (s : JVal) : JVal :=
  .obj [("step", numberOf (coalesce (getField s "step") (.num ((i : Rat) + 1)))),
        ("instruction", .str (jsToString (jsOr (getField s "instruction")
          (jsOr (getField s altKey) (.str (jsToString (jsOr s (.str ""))))))))]

/-- The `map`/`filter` over the raw `steps` array: build each entry, then drop
the ones whose instruction string is empty (`.filter(s => s.instruction)`). -/
def normalizeSteps (altKey : String) (raw : List JVal) : List JVal :=
  (raw.enum.map (fun p => mkStepEntry altKey p.1 p.2)).filter
    (fun e => truthy (getField e "instruction"))

/-- The placeholder step installed when no steps survive filtering. -/
def noStepsFallback : JVal :=
  .obj [("step", .num 1), ("instruction", .str "No clear steps detected.")]

/-- The normalization `synthesizeRecipe` applies to the parsed chat content
(the block after `parseJsonFromContent` in the source). -/
def normalizeRecipeObj (parsed videoTitle : JVal) : JVal :=
  let o := coerceParsed parsed
  let o := setField o "type" (.str "recipe")
  let o := setField o "category" (.str "recipe")
  let o := setField o "title" (jsOr (getField o "title") (jsOr videoTitle (.str "Recipe")))
  let o := setField o "intro" (jsOr (getField o "intro") (.str ""))
  let o := setField o "ingredients" (ensureArr (getField o "ingredients"))
  let steps := normalizeSteps "action" (stepsArrOf o)
  let o := setField o "steps" (.arr steps [])
  let o := if steps.isEmpty then setField o "steps" (.arr [noStepsFallback] []) else o
  setField o "notes" (ensureArr (getField o "notes"))

/-- `synthesizeRecipe`.  `chat` is the `callOpenAIChat` outcome, `jp` the
`JSON.parse` built-in, `videoTitle` the value of `videoInfo.title`. -/
def synthesizeRecipe (jp : String → Option JVal) (chat : Except String String)
    (videoTitle : JVal) : JVal :=
  match chat with
  | .error e =>
      .obj [("type", .str "recipe"), ("category", .str "recipe"),
            ("title", jsOr videoTitle (.str "Recipe")),
            ("intro", .str "Recipe generation failed due to AI processing error."),
            ("ingredients", .arr [] []),
            ("steps", .arr [.obj [("step", .num 1),
              ("instruction", .str "Summary generation failed. Please try again.")]] []),
            ("notes", .arr [.str ("Error: " ++ e)] [])]
  | .ok content =>
      normalizeRecipeObj (parseJsonFromContent jp content .null) videoTitle

/-- The normalization `synthesizeTutorial` applies to the parsed chat
content. -/
def normalizeTutorialObj (parsed videoTitle : JVal) : JVal :=
  let o := coerceParsed parsed
  let o := setField o "type" (.str "tutorial")
  let o := setField o "category" (.str "tutorial")
  let o := setField o "title" (jsOr (getField o "title") (jsOr videoTitle (.str "Tutorial")))
  let o := setField o "intro" (jsOr (getField o "intro") (.str ""))
  let o := setField o "materials"
    (if isArray (getField o "materials") then getField o "materials"
     else if isArray (getField o "materialsNeeded") then getField o "materialsNeeded"
     else .arr [] [])
  let steps := normalizeSteps "title" (stepsArrOf o)
  let o := setField o "steps" (.arr steps [])
  let o := if steps.isEmpty then setField o "steps" (.arr [noStepsFallback] []) else o
  let o := setField o "tips" (ensureArr (getField o "tips"))
  setField o "warnings" (ensureArr (getField o "warnings"))

/-- `synthesizeTutorial`, same shape as the recipe synthesizer but with the
tutorial schema (`materials`/`materialsNeeded`, `tips`, `warnings`, and
`title` as the alternate instruction key). -/
def synthesizeTutorial (jp : String → Option JVal) (chat : Except String String)
    (videoTitle : JVal) : JVal :=
  match chat with
  | .error e =>
      .obj [("type", .str "tutorial"), ("category", .str "tutorial"),
            ("title", jsOr videoTitle (.str "Tutorial")),
            ("intro", .str "Tutorial generation failed due to AI processing error."),
            ("materials", .arr [] []),
            ("steps", .arr [.obj [("step", .num 1),
              ("instruction", .str "Summary generation failed. Please try again.")]] []),
            ("tips", .arr [] []),
            ("warnings", .arr [.str ("Error: " ++ e)] [])]
  | .ok content =>
      normalizeTutorialObj (parseJsonFromContent jp content .null) videoTitle

-- ---------------- normalizeForUI (src/app.js lines 516-557) ----------------

/-- The tutorial branch of `normalizeForUI`. -/
def normTutorialFields (s : JVal) : JVal :=
  let s := setField s "intro"
    (if isString (getField s "intro") then getField s "intro" else .str "")
  let s := setField s "materials"
    (if isArray (getField s "materials") then getField s "materials"
     else if isArray (getField s "materialsNeeded") then getField s "materialsNeeded"
     else .arr [] [])
  let s := setField s "steps" (ensureArr (getField s "steps"))
  let s := setField s "tips" (ensureArr (getField s "tips"))
  setField s "warnings" (ensureArr (getField s "warnings"))

/-- The recipe branch of `normalizeForUI`. -/
def normRecipeFields (s : JVal) : JVal :=
  let s := setField s "intro"
    (if isString (getField s "intro") then getField s "intro" else .str "")
  let s := setField s "ingredients" (ensureArr (getField s "ingredients"))
  let s := setField s "steps" (ensureArr (getField s "steps"))
  setField s "notes" (ensureArr (getField s "notes"))

/-- The story/general branch of `normalizeForUI` (transcript shape plus the
`keyTakeaways`/`quotes` arrays). -/
def normStoryFields (s : JVal) : JVal :=
  let s :=
    if !truthy (getField s "transcript") || !typeofIsObject (getField s "transcript") then
      setField s "transcript" (.obj [("verbatim", .str ""), ("readable", .str "")])
    else
      let t := getField s "transcript"
      let t := setField t "verbatim" (jsOr (getField t "verbatim") (.str ""))
      let t := setField t "readable" (jsOr (getField t "readable") (.str ""))
      setField s "transcript" t
  let s := setField s "keyTakeaways" (ensureArr (getField s "keyTakeaways"))
  setField s "quotes" (ensureArr (getField s "quotes"))

/-- The `rawType.includes('recipe') ? ... : ...` collapse used both by
`normalizeForUI` and `generateSpecializedSummary`. -/
def normTypeOf (rawType : String) : String :=
  if jsIncludes rawType "recipe" then "recipe"
  else if jsIncludes rawType "tutorial" then "tutorial"
  else "general"

/-- The block of `normalizeForUI` after `rawType` is computed: default
`type`/`category`, then run the matching branch normalizers. -/
def normalizeForUIBody (s0 : JVal) (rawType : String) : JVal :=
  let normType := normTypeOf rawType
  let s := setField s0 "type" (jsOr (getField s0 "type") (.str normType))
  let s := setField s "category" (jsOr (getField s "category") (.str normType))
  let s := if isStrVal (getField s "type") "tutorial" then normTutorialFields s else s
  let s := if isStrVal (getField s "type") "recipe" then normRecipeFields s else s
  let s :=
    if isStrVal (getField s "type") "story" || isStrVal (getField s "category") "general"
    then normStoryFields s else s
  s

/-- `normalizeForUI(summary, analysis)`.  Returns `none` for the `TypeError`
thrown when the first truthy value of
`analysis?.contentType || s.type || s.category || 'general'` is not a string
(`.toLowerCase()` on a non-string). -/
def normalizeForUI (summary analysis : JVal) : Option JVal :=
  let s := jsOr summary (.obj [])
  match jsToLowerString (jsOr (getField analysis "contentType")
      (jsOr (getField s "type") (jsOr (getField s "category") (.str "general")))) with
  | none => none
  | some rawType => some (normalizeForUIBody s rawType)

-- --------------- compressIfNeeded (src/app.js lines 188-203) ---------------

/-- The 24 MB ceiling, in bytes: `size / (1024*1024) <= 24` is exactly
`size ≤ 24·1024·1024` (division by a power of two is exact here). -/
def audioSizeCeiling : Nat := 24 * 1024 * 1024

/-- An audio file on disk: path plus `fs.statSync(path).size`. -/
structure AudioAsset where
  path : String
  size : Nat
  deriving DecidableEq, Repr

/-- `wavPath.replace(/\.wav$/i, '_compressed.wav')`. -/
def compressedPath (wavPath : String) : String :=
  let cs := wavPath.toList
  let n := cs.length
  if decide (4 ≤ n) && (jsLower (String.mk (cs.drop (n - 4))) == ".wav") then
    String.mk (cs.take (n - 4)) ++ "_compressed.wav"
  else wavPath

/-- `compressIfNeeded(wavPath)`.  `ffmpegOut` is the ffmpeg collaborator:
given the input path it either fails (`none`, the awaited promise rejects and
the job fails) or produces the re-encoded file of some byte size.  Note the
source checks the size only before re-encoding; the re-encoded file is
returned without any further size check. -/
def compressIfNeeded (ffmpegOut : String → Option Nat) (wav : AudioAsset) :
    Option AudioAsset :=
  if wav.size ≤ audioSizeCeiling then some wav
  else
    match ffmpegOut wav.path with
    | none => none
    | some outSize => some { path := compressedPath wav.path, size := outSize }

-- ----------- downloadAndExtractAudio (src/app.js lines 138-186) -----------

/-- What one extraction attempt leaves behind: whether `exec` reported an
error, and the temp-directory listing afterwards (file name and byte size;
the source never reads the sizes). -/
structure AttemptOutcome where
  execErr : Bool
  files : List (String × Nat)
  deriving DecidableEq, Repr

/-- The file filter `f.startsWith('audio_') || f.startsWith('audio.') || f.startsWith('audio')`. -/
def audioNameMatch (f : String) : Bool :=
  beginsWithL "audio_".toList f.toList || beginsWithL "audio.".toList f.toList ||
  beginsWithL "audio".toList f.toList

/-- The per-platform ordered strategy lists (the exact yt-dlp command lines,
with `outBase` and `url` interpolated); `[platform] || []` at the end. -/
def audioStrategies (platform outBase url : String) : List String :=
  if platform == "instagram" then
    ["yt-dlp -f \"best[ext=mp4]\" --extract-audio --audio-format wav --user-agent \"Instagram 219.0.0.12.117 Android\" -o \"" ++ outBase ++ ".%(ext)s\" \"" ++ url ++ "\"",
     "yt-dlp -f \"best\" --extract-audio --audio-format wav --user-agent \"Mozilla/5.0 (iPhone; CPU iPhone OS 15_0 like Mac OS X)\" -o \"" ++ outBase ++ ".%(ext)s\" \"" ++ url ++ "\"",
     "yt-dlp --extract-audio --audio-format wav -o \"" ++ outBase ++ ".%(ext)s\" \"" ++ url ++ "\""]
  else if platform == "tiktok" then
    ["yt-dlp -f \"best\" --extract-audio --audio-format wav --user-agent \"Mozilla/5.0 (Linux; Android 10; SM-G973F)\" -o \"" ++ outBase ++ ".%(ext)s\" \"" ++ url ++ "\"",
     "yt-dlp --extract-audio --audio-format wav -o \"" ++ outBase ++ ".%(ext)s\" \"" ++ url ++ "\""]
  else if platform == "facebook" then
    ["yt-dlp -f \"best[height<=720]\" --extract-audio --audio-format wav --user-agent \"Mozilla/5.0 (Windows NT 10.0; Win64; x64)\" -o \"" ++ outBase ++ ".%(ext)s\" \"" ++ url ++ "\"",
     "yt-dlp --extract-audio --audio-format wav -o \"" ++ outBase ++ ".%(ext)s\" \"" ++ url ++ "\""]
  else if platform == "youtube" then
    ["yt-dlp -f \"bestaudio/best\" --extract-audio --audio-format wav --user-agent \"Mozilla/5.0 (Windows NT 10.0; Win64; x64)\" --extractor-args \"youtube:player_client=android\" -o \"" ++ outBase ++ ".%(ext)s\" \"" ++ url ++ "\"",
     "yt-dlp --extract-audio --audio-format wav -o \"" ++ outBase ++ ".%(ext)s\" \"" ++ url ++ "\""]
  else if platform == "unknown" then
    ["yt-dlp --extract-audio --audio-format wav -o \"" ++ outBase ++ ".%(ext)s\" \"" ++ url ++ "\""]
  else []

/-- The directory listing restricted by the audio-name filter (the source
checks `files.length` and returns `files[0]`; no size is ever consulted). -/
def attemptFiles (r : AttemptOutcome) : List (String × Nat) :=
  r.files.filter (fun p => audioNameMatch p.1)

/-- The strategy loop: try attempt `i`, then `i+1`, … while `remaining`
strategies are left; the first attempt that runs without an exec error and
leaves at least one matching file wins, returning that first file. -/
def tryStrategies (run : Nat → AttemptOutcome) : Nat → Nat → Except String (String × Nat)
  | _, 0 => .error "All audio extraction strategies failed"
  | i, n + 1 =>
    let r := run i
    if r.execErr then tryStrategies run (i + 1) n
    else
      match attemptFiles r with
      | [] => tryStrategies run (i + 1) n
      | f :: _ => .ok f

/-- `downloadAndExtractAudio(url)`: resolve the platform, pick its strategy
list and run the loop.  `run i` is the collaborator outcome of executing
strategy `i`. -/
def downloadAndExtractAudio (run : Nat → AttemptOutcome) (outBase url : String) :
    Except String (String × Nat) :=
  tryStrategies run 0 (audioStrategies (platformOf (jsLower url)) outBase url).length

-- -------- early/full transcripts (src/app.js lines 590-604) --------

/-- `str.trim()`, left side. -/
def trimL (s : List Char) : List Char := s.dropWhile jsWsChar

/-- `str.trim()`, right side. -/
def trimR (s : List Char) : List Char := (s.reverse.dropWhile jsWsChar).reverse

/-- `str.trim()`. -/
def jsTrim (s : List Char) : List Char := trimR (trimL s)

/-- `Array.prototype.join(' ')` on a list of chunk transcripts. -/
def joinSp : List (List Char) → List Char
  | [] => []
  | [t] => t
  | t :: rest => t ++ ' ' :: joinSp rest

/-- `Math.min(2, chunks.length)`. -/
def earlyCount (texts : List (List Char)) : Nat := min 2 texts.length

/-- `earlyParts.join(' ').trim()` over the first `min(2, n)` chunk texts. -/
def earlyTranscript (texts : List (List Char)) : List Char :=
  jsTrim (joinSp (texts.take (earlyCount texts)))

/-- `(earlyTranscript + ' ' + restParts.join(' ')).trim()`. -/
def fullTranscript (texts : List (List Char)) : List Char :=
  jsTrim (earlyTranscript texts ++ ' ' :: joinSp (texts.drop (earlyCount texts)))

-- ------- the coordinator's progress events (src/app.js 560-652) -------

/-- The `step` numbers of a document's steps (`none` = `NaN`). -/
def stepNumbersOf (d : JVal) : List (Option Rat) :=
  (stepsArrOf d).map (fun e => jsToNumber (getField e "step"))

/-- The instruction strings of a document's steps. -/
def stepInstructionsOf (d : JVal) : List (Option String) :=
  (stepsArrOf d).map (fun e =>
    match getField e "instruction" with
    | .str s => some s
    | _ => none)

/-- The document `synthesizeTutorial` produces when the model's content held
no parseable JSON: the full normalization applied to an empty object. -/
def minimalTutorialDoc (videoTitle : JVal) : JVal :=
  .obj [("type", .str "tutorial"), ("category", .str "tutorial"),
        ("title", jsOr videoTitle (.str "Tutorial")), ("intro", .str ""),
        ("materials", .arr [] []),
        ("steps", .arr [noStepsFallback] []),
        ("tips", .arr [] []), ("warnings", .arr [] [])]

/-- An extraction attempt that does not win: exec error, or no file passing
the name filter. -/
def attemptFails (r : AttemptOutcome) : Prop :=
  r.execErr = true ∨ attemptFiles r = []

/-- The well-formedness the synthesizers guarantee for their `steps` output:
a nonempty array of `\x7bstep, instruction\x7d` objects whose instructions are
nonempty strings and whose step values are numbers (or `NaN`). -/
def stepsWellFormed (d : JVal) : Prop :=
  ∃ es, getField d "steps" = .arr es [] ∧ es ≠ [] ∧
    ∀ e ∈ es, ∃ sv instr, e = .obj [("step", sv), ("instruction", .str instr)] ∧
      instr ≠ "" ∧ ((∃ q, sv = .num q) ∨ sv = .nan)

theorem getAssoc_setAssoc_self (fs : List (String × JVal)) (k : String) (v : JVal) :
    getAssoc (setAssoc fs k v) k = some v := by
  induction fs with
  | nil => simp [setAssoc, getAssoc]
  | cons p rest ih =>
    obtain ⟨k1, w⟩ := p
    by_cases h : k1 = k <;> simp [setAssoc, getAssoc, h, ih]

theorem getAssoc_setAssoc_ne (fs : List (String × JVal)) (k k2 : String) (v : JVal)
    (h : ¬ k = k2) : getAssoc (setAssoc fs k v) k2 = getAssoc fs k2 := by
  induction fs with
  | nil => simp [setAssoc, getAssoc, h]
  | cons p rest ih =>
    obtain ⟨k1, w⟩ := p
    by_cases h1 : k1 = k
    · subst h1; simp [setAssoc, getAssoc, h]
    · simp [setAssoc, getAssoc, h1, ih]

theorem setAssoc_getAssoc_self (fs : List (String × JVal)) (k : String) (v : JVal)
    (h : getAssoc fs k = some v) : setAssoc fs k v = fs := by
  induction fs with
  | nil => simp [getAssoc] at h
  | cons p rest ih =>
    obtain ⟨k1, w⟩ := p
    by_cases h1 : k1 = k
    · subst h1
      simp [getAssoc] at h
      simp [setAssoc, h]
    · simp [getAssoc, h1] at h
      simp [setAssoc, h1, ih h]

theorem objLike_setField (o : JVal) (k : String) (v : JVal) :
    objLike (setField o k v) = objLike o := by
  cases o <;> rfl

theorem truthy_setField (o : JVal) (k : String) (v : JVal) :
    truthy (setField o k v) = truthy o := by
  cases o <;> rfl

theorem typeofIsObject_setField (o : JVal) (k : String) (v : JVal) :
    typeofIsObject (setField o k v) = typeofIsObject o := by
  cases o <;> rfl

theorem setField_id_of_not_objLike (o : JVal) (k : String) (v : JVal)
    (h : objLike o = false) : setField o k v = o := by
  cases o <;> first | rfl | simp [objLike] at h

theorem getField_undef_of_not_objLike (o : JVal) (k : String)
    (h : objLike o = false) : getField o k = .undefined := by
  cases o <;> first | rfl | simp [objLike] at h

theorem getField_setField_self (o : JVal) (k : String) (v : JVal)
    (h : objLike o = true) : getField (setField o k v) k = v := by
  cases o <;> simp [objLike] at h <;> simp [setField, getField, getAssoc_setAssoc_self]

theorem getField_setField_ne (o : JVal) (k k2 : String) (v : JVal)
    (h : ¬ k = k2) : getField (setField o k v) k2 = getField o k2 := by
  cases o <;> simp [setField, getField, getAssoc_setAssoc_ne _ _ _ _ h]

theorem hasField_of_getField_ne_undefined (o : JVal) (k : String)
    (h : ¬ getField o k = .undefined) : hasField o k = true := by
  cases o <;> simp [getField] at h ⊢ <;>
    first
    | exact absurd rfl h
    | · rename_i fs
        cases hg : getAssoc fs k with
        | none => rw [hg] at h; exact absurd rfl h
        | some w => simp [hasField, hg]

theorem setField_getField_of_has (o : JVal) (k : String)
    (h : hasField o k = true) : setField o k (getField o k) = o := by
  cases o <;> simp [hasField] at h <;>
    · rename_i fs
      obtain ⟨w, hw⟩ := Option.isSome_iff_exists.mp h
      simp [setField, getField, hw, setAssoc_getAssoc_self _ _ _ hw]

theorem hasField_setField_self (o : JVal) (k : String) (v : JVal)
    (h : objLike o = true) : hasField (setField o k v) k = true := by
  cases o <;> simp [objLike] at h <;> simp [setField, hasField, getAssoc_setAssoc_self]

theorem hasField_setField_ne (o : JVal) (k k2 : String) (v : JVal)
    (h : ¬ k = k2) : hasField (setField o k v) k2 = hasField o k2 := by
  cases o <;> simp [setField, hasField, getAssoc_setAssoc_ne _ _ _ _ h]

theorem isArray_ensureArr (v : JVal) : isArray (ensureArr v) = true := by
  by_cases h : isArray v = true
  · simp [ensureArr, h]
  · simp only [ensureArr, h, if_false]
    rfl

theorem ensureArr_of_isArray (v : JVal) (h : isArray v = true) : ensureArr v = v := by
  simp [ensureArr, h]

theorem jsOr_of_truthy (a b : JVal) (h : truthy a = true) : jsOr a b = a := by
  simp [jsOr, h]

theorem jsOr_of_not_truthy (a b : JVal) (h : truthy a = false) : jsOr a b = b := by
  simp [jsOr, h]

theorem jsOr_empty_idem (a : JVal) :
    jsOr (jsOr a (.str "")) (.str "") = jsOr a (.str "") := by
  cases h : truthy a with
  | true => rw [jsOr_of_truthy _ _ h, jsOr_of_truthy _ _ h]
  | false => rw [jsOr_of_not_truthy _ _ h]; rfl

theorem getField_ne_undef_of_truthy (o : JVal) (k : String)
    (h : truthy (getField o k) = true) : ¬ getField o k = .undefined := by
  intro he
  rw [he] at h
  simp [truthy] at h

-- ---------------- The strategy loop (claim C4 infrastructure) ----------------

theorem tryStrategies_ok_shape (run : Nat → AttemptOutcome) (i n : Nat) (f : String × Nat)
    (h : tryStrategies run i n = .ok f) :
    ∃ k, k < n ∧ (run (i + k)).execErr = false ∧
      (∃ rest, attemptFiles (run (i + k)) = f :: rest) ∧
      ∀ j, j < k → attemptFails (run (i + j)) := by
  induction n generalizing i with
  | zero => simp [tryStrategies] at h
  | succ n ih =>
    rw [tryStrategies] at h
    by_cases he : (run i).execErr = true
    · rw [if_pos he] at h
      obtain ⟨k, hk, h1, h2, h3⟩ := ih (i + 1) h
      refine ⟨k + 1, by omega, ?_, ?_, ?_⟩
      · rwa [show i + (k + 1) = i + 1 + k by omega]
      · rwa [show i + (k + 1) = i + 1 + k by omega]
      · intro j hj
        cases j with
        | zero => exact Or.inl (by simpa using he)
        | succ m =>
          have := h3 m (by omega)
          rwa [show i + (m + 1) = i + 1 + m by omega]
    · rw [if_neg he] at h
      cases hf : attemptFiles (run i) with
      | nil =>
        rw [hf] at h
        obtain ⟨k, hk, h1, h2, h3⟩ := ih (i + 1) h
        refine ⟨k + 1, by omega, ?_, ?_, ?_⟩
        · rwa [show i + (k + 1) = i + 1 + k by omega]
        · rwa [show i + (k + 1) = i + 1 + k by omega]
        · intro j hj
          cases j with
          | zero => exact Or.inr (by simpa using hf)
          | succ m =>
            have := h3 m (by omega)
            rwa [show i + (m + 1) = i + 1 + m by omega]
      | cons f0 rest =>
        rw [hf] at h
        have hf0 : f0 = f := by
          simpa using h
        refine ⟨0, by omega, ?_, ?_, ?_⟩
        · simpa using Bool.eq_false_iff.mpr he
        · exact ⟨rest, by simpa [hf0] using hf⟩
        · intro j hj; omega

theorem tryStrategies_exhausted (run : Nat → AttemptOutcome) (i n : Nat)
    (h : ∀ k, k < n → attemptFails (run (i + k))) :
    tryStrategies run i n = .error "All audio extraction strategies failed" := by
  induction n generalizing i with
  | zero => rfl
  | succ n ih =>
    have hrest : ∀ k, k < n → attemptFails (run (i + 1 + k)) := by
      intro k hk
      have := h (k + 1) (by omega)
      rwa [show i + (k + 1) = i + 1 + k by omega] at this
    rw [tryStrategies]
    rcases h 0 (by omega) with he | hfe
    · rw [if_pos (by simpa using he)]
      exact ih (i + 1) hrest
    · by_cases he : (run i).execErr = true
      · rw [if_pos he]
        exact ih (i + 1) hrest
      · rw [if_neg he]
        have hfe' : attemptFiles (run i) = [] := by simpa using hfe
        rw [hfe']
        exact ih (i + 1) hrest

-- ------------------------------ Claim C10 ------------------------------

/-- C10: the Platform Resolver is total on the guarded inputs.  Every falsy
value — in particular `null`, `undefined` and the empty string — is coerced
by `(url || '')` and yields `'unknown'` rather than throwing, and every
string input yields one of the five platform tags. -/
theorem detectPlatformFromUrl_total_on_guarded_inputs :
    (∀ v : JVal, truthy v = false → detectPlatformFromUrl v = some "unknown") ∧
    (∀ s : String, detectPlatformFromUrl (.str s) = some (platformOf (jsLower s))) ∧
    (∀ u : String, platformOf u = "instagram" ∨ platformOf u = "tiktok" ∨
      platformOf u = "facebook" ∨ platformOf u = "youtube" ∨ platformOf u = "unknown") := by
  refine ⟨?_, ?_, ?_⟩
  · intro v hv
    rw [detectPlatformFromUrl, jsOr_of_not_truthy _ _ hv]
    rfl
  · intro s
    by_cases h : truthy (.str s) = true
    · rw [detectPlatformFromUrl, jsOr_of_truthy _ _ h]
      rfl
    · have hs : s = "" := by
        simpa [truthy] using h
      subst hs
      rfl
  · intro u
    unfold platformOf
    split_ifs <;> simp

/-- C10 witness: the theorem evaluated at `null`, `undefined` and `""`. -/
theorem detectPlatformFromUrl_total_on_guarded_inputs_w :
    detectPlatformFromUrl .null = some "unknown" ∧
    detectPlatformFromUrl .undefined = some "unknown" ∧
    detectPlatformFromUrl (.str "") = some "unknown" :=
  ⟨detectPlatformFromUrl_total_on_guarded_inputs.1 .null rfl,
   detectPlatformFromUrl_total_on_guarded_inputs.1 .undefined rfl,
   detectPlatformFromUrl_total_on_guarded_inputs.1 (.str "") rfl⟩

-- ------------------------------ Claim C1 ------------------------------

/-- C1 counterexample: with a 30 MiB input whose re-encoding still produces a
30 MiB file, `compressIfNeeded` returns the oversized re-encoded asset
instead of failing the job, so the claimed `size ≤ ceiling` post-condition
for assets entering segmentation is violated. -/
theorem compressIfNeeded_returns_oversized_output :
    compressIfNeeded (fun _ => some (30 * 1024 * 1024)) ⟨"a.wav", 30 * 1024 * 1024⟩ =
      some ⟨"a_compressed.wav", 30 * 1024 * 1024⟩ ∧
    ¬ (30 * 1024 * 1024 ≤ audioSizeCeiling) := by
  exact ⟨rfl, by decide⟩

/-- C1 amended: an asset at or under the ceiling passes through unchanged;
an oversized asset is re-encoded and the re-encoded asset is returned
without any further size check (whatever its size); the job fails at this
stage only when ffmpeg itself errors. -/
theorem compressIfNeeded_characterization (f : String → Option Nat) (a : AudioAsset) :
    (a.size ≤ audioSizeCeiling → compressIfNeeded f a = some a) ∧
    (audioSizeCeiling < a.size → f a.path = none → compressIfNeeded f a = none) ∧
    (∀ sz : Nat, audioSizeCeiling < a.size → f a.path = some sz →
      compressIfNeeded f a = some ⟨compressedPath a.path, sz⟩) := by
  refine ⟨fun h => ?_, fun h1 h2 => ?_, fun sz h1 h2 => ?_⟩
  · simp [compressIfNeeded, h]
  · simp [compressIfNeeded, show ¬ a.size ≤ audioSizeCeiling from Nat.not_le.mpr h1, h2]
  · simp [compressIfNeeded, show ¬ a.size ≤ audioSizeCeiling from Nat.not_le.mpr h1, h2]

/-- C1 witness: the theorem evaluated on a 1 KiB asset (pass-through). -/
theorem compressIfNeeded_characterization_w :
    compressIfNeeded (fun _ => none) ⟨"b.wav", 1024⟩ = some ⟨"b.wav", 1024⟩ :=
  (compressIfNeeded_characterization (fun _ => none) ⟨"b.wav", 1024⟩).1 (by decide)

-- ------------------------------ Claim C9 ------------------------------

/-- C4 counterexample: a strategy that leaves only a 5 KB file still wins —
the code has no >10 KB noise-floor check; any file passing the name filter is
returned whatever its size. -/
theorem acquisition_accepts_small_file :
    downloadAndExtractAudio (fun _ => ⟨false, [("audio.wav", 5120)]⟩) "/tmp/a/audio"
      "https://youtu.be/x" = .ok ("audio.wav", 5120) ∧
    ¬ ((5120 : Nat) > 10 * 1024) := by
  exact ⟨rfl, by decide⟩

/-- C4 amended: strategies are tried strictly in list order; the winner is
the first attempt that completes without an exec error and leaves at least
one file matching the audio-name filter (no size condition), and its first
matching file is returned; if every strategy fails the job fails with the
`All audio extraction strategies failed` error. -/
theorem downloadAndExtractAudio_first_success (run : Nat → AttemptOutcome)
    (outBase url : String) :
    (∀ f, downloadAndExtractAudio run outBase url = .ok f →
      ∃ k, k < (audioStrategies (platformOf (jsLower url)) outBase url).length ∧
        (run k).execErr = false ∧ (∃ rest, attemptFiles (run k) = f :: rest) ∧
        ∀ j, j < k → attemptFails (run j)) ∧
    ((∀ k, k < (audioStrategies (platformOf (jsLower url)) outBase url).length →
        attemptFails (run k)) →
      downloadAndExtractAudio run outBase url =
        .error "All audio extraction strategies failed") := by
  constructor
  · intro f h
    obtain ⟨k, hk, h1, h2, h3⟩ := tryStrategies_ok_shape run 0 _ f h
    exact ⟨k, hk, by simpa using h1, by simpa using h2,
      fun j hj => by simpa using h3 j hj⟩
  · intro h
    exact tryStrategies_exhausted run 0 _ (fun k hk => by simpa using h k hk)

/-- C4 witness: the exhaustion branch evaluated on an all-failing oracle. -/
theorem downloadAndExtractAudio_first_success_w :
    downloadAndExtractAudio (fun _ => ⟨true, []⟩) "/tmp/a/audio" "u" =
      .error "All audio extraction strategies failed" :=
  (downloadAndExtractAudio_first_success (fun _ => ⟨true, []⟩) "/tmp/a/audio" "u").2
    (fun _ _ => Or.inl rfl)

-- -------------------- Trim lemmas (claim C6 infrastructure) --------------------

theorem dropWhile_head_not_ws (l : List Char) (c : Char) (t : List Char)
    (h : l.dropWhile jsWsChar = c :: t) : jsWsChar c = false := by
  have hh := List.head?_dropWhile_not jsWsChar l
  rw [h] at hh
  simpa using hh

theorem dropWhile_eq_self_of_head (l : List Char)
    (h : ∀ c, l.head? = some c → jsWsChar c = false) :
    l.dropWhile jsWsChar = l := by
  cases l with
  | nil => rfl
  | cons a as =>
    rw [List.dropWhile_cons_of_neg]
    simp [h a rfl]

theorem trimR_decomp (x : List Char) :
    x = trimR x ++ (x.reverse.takeWhile jsWsChar).reverse := by
  unfold trimR
  conv_lhs => rw [← x.reverse_reverse, ← List.takeWhile_append_dropWhile jsWsChar x.reverse]
  rw [List.reverse_append]

theorem trimR_getLast_not_ws (x : List Char) (c : Char)
    (h : (trimR x).getLast? = some c) : jsWsChar c = false := by
  unfold trimR at h
  rw [List.getLast?_reverse] at h
  have hh := List.head?_dropWhile_not jsWsChar x.reverse
  rw [h] at hh
  simpa using hh

theorem jsTrim_head_not_ws (s : List Char) (c : Char) (t : List Char)
    (h : jsTrim s = c :: t) : jsWsChar c = false := by
  have hdec := trimR_decomp (trimL s)
  rw [show trimR (trimL s) = jsTrim s from rfl, h] at hdec
  exact dropWhile_head_not_ws s c _ (by simpa [trimL] using hdec)

theorem jsTrim_getLast_not_ws (s : List Char) (c : Char)
    (h : (jsTrim s).getLast? = some c) : jsWsChar c = false :=
  trimR_getLast_not_ws (trimL s) c h

theorem trimR_append (e r : List Char)
    (he : ∀ c, e.getLast? = some c → jsWsChar c = false) :
    trimR (e ++ r) = e ++ trimR r := by
  unfold trimR
  rw [List.reverse_append, List.dropWhile_append]
  by_cases hemp : (r.reverse.dropWhile jsWsChar).isEmpty
  · rw [if_pos hemp]
    rw [List.isEmpty_iff] at hemp
    rw [hemp, dropWhile_eq_self_of_head e.reverse
      (fun c hc => he c (by rwa [List.head?_reverse] at hc))]
    simp
  · rw [if_neg hemp, List.reverse_append, List.reverse_reverse]

-- ------------------------------ Claim C6 ------------------------------

/-- C6: the full transcript extends the early transcript.  For every list of
per-chunk transcription results (in index order), `fullTranscript` — built as
`(early + ' ' + rest.join(' ')).trim()` over the chunks after the first
`min(2, n)` — literally starts with `earlyTranscript` (the joining space and
trimming never disturb the early prefix), so its length is at least the early
transcript's length. -/
theorem fullTranscript_extends_early (texts : List (List Char)) :
    (∃ t, fullTranscript texts = earlyTranscript texts ++ t) ∧
    (earlyTranscript texts).length ≤ (fullTranscript texts).length := by
  have main : ∃ t, fullTranscript texts = earlyTranscript texts ++ t := by
    cases he : earlyTranscript texts with
    | nil => exact ⟨fullTranscript texts, by simp⟩
    | cons c cs =>
      have hhead : jsWsChar c = false := jsTrim_head_not_ws _ _ _ he
      refine ⟨trimR (' ' :: joinSp (texts.drop (earlyCount texts))), ?_⟩
      rw [fullTranscript, jsTrim, he]
      have htl : trimL ((c :: cs) ++ ' ' :: joinSp (texts.drop (earlyCount texts))) =
          (c :: cs) ++ ' ' :: joinSp (texts.drop (earlyCount texts)) := by
        unfold trimL
        rw [List.cons_append, List.dropWhile_cons_of_neg]
        simp [hhead]
      rw [htl]
      refine trimR_append _ _ (fun d hd => ?_)
      refine jsTrim_getLast_not_ws (joinSp (texts.take (earlyCount texts))) d ?_
      rw [show jsTrim (joinSp (texts.take (earlyCount texts))) = earlyTranscript texts from rfl,
        he]
      exact hd
  refine ⟨main, ?_⟩
  obtain ⟨t, ht⟩ := main
  rw [ht]
  simp

-- ------------- Synthesizer lemmas (claims C2, C5 infrastructure) -------------

theorem objLike_coerceParsed (p : JVal) : objLike (coerceParsed p) = true := by
  cases p <;> simp [coerceParsed, truthy, typeofIsObject, objLike]

theorem normalizeSteps_mem (alt : String) (raw : List JVal) (e : JVal)
    (he : e ∈ normalizeSteps alt raw) :
    ∃ i s, raw[i]? = some s ∧ e = mkStepEntry alt i s ∧
      truthy (getField e "instruction") = true := by
  unfold normalizeSteps at he
  rw [List.mem_filter] at he
  obtain ⟨hm, ht⟩ := he
  rw [List.mem_map] at hm
  obtain ⟨p, hp, he2⟩ := hm
  exact ⟨p.1, p.2, List.mem_enum_iff_getElem?.mp hp, he2.symm, he2 ▸ ht⟩

theorem mkStepEntry_shape (alt : String) (i : Nat) (s : JVal) :
    ∃ sv instr, mkStepEntry alt i s = .obj [("step", sv), ("instruction", .str instr)] ∧
      ((∃ q, sv = .num q) ∨ sv = .nan) := by
  unfold mkStepEntry numberOf
  cases jsToNumber (coalesce (getField s "step") (.num ((i : Rat) + 1))) with
  | some q => exact ⟨.num q, _, rfl, Or.inl ⟨q, rfl⟩⟩
  | none => exact ⟨.nan, _, rfl, Or.inr rfl⟩

theorem getField_step_pair (sv : JVal) (instr : String) :
    getField (.obj [("step", sv), ("instruction", .str instr)]) "instruction" =
      .str instr := by
  simp +decide [getField, getAssoc]

theorem stepsArrOf_setField_ne (o : JVal) (k : String) (v : JVal) (h : ¬ k = "steps") :
    stepsArrOf (setField o k v) = stepsArrOf o := by
  unfold stepsArrOf
  rw [getField_setField_ne _ _ _ _ h]

theorem normalizeTutorialObj_steps (parsed title : JVal) :
    getField (normalizeTutorialObj parsed title) "steps" =
      .arr (if (normalizeSteps "title" (stepsArrOf (coerceParsed parsed))).isEmpty
            then [noStepsFallback]
            else normalizeSteps "title" (stepsArrOf (coerceParsed parsed))) [] := by
  simp only [normalizeTutorialObj]
  rw [getField_setField_ne _ "warnings" "steps" _ (by decide),
      getField_setField_ne _ "tips" "steps" _ (by decide),
      stepsArrOf_setField_ne _ "materials" _ (by decide),
      stepsArrOf_setField_ne _ "intro" _ (by decide),
      stepsArrOf_setField_ne _ "title" _ (by decide),
      stepsArrOf_setField_ne _ "category" _ (by decide),
      stepsArrOf_setField_ne _ "type" _ (by decide),
      apply_ite (fun o => getField o "steps"),
      getField_setField_self _ _ _ (by simp [objLike_setField, objLike_coerceParsed]),
      getField_setField_self _ _ _ (by simp [objLike_setField, objLike_coerceParsed])]
  split <;> rfl

theorem normalizeRecipeObj_steps (parsed title : JVal) :
    getField (normalizeRecipeObj parsed title) "steps" =
      .arr (if (normalizeSteps "action" (stepsArrOf (coerceParsed parsed))).isEmpty
            then [noStepsFallback]
            else normalizeSteps "action" (stepsArrOf (coerceParsed parsed))) [] := by
  simp only [normalizeRecipeObj]
  rw [getField_setField_ne _ "notes" "steps" _ (by decide),
      stepsArrOf_setField_ne _ "ingredients" _ (by decide),
      stepsArrOf_setField_ne _ "intro" _ (by decide),
      stepsArrOf_setField_ne _ "title" _ (by decide),
      stepsArrOf_setField_ne _ "category" _ (by decide),
      stepsArrOf_setField_ne _ "type" _ (by decide),
      apply_ite (fun o => getField o "steps"),
      getField_setField_self _ _ _ (by simp [objLike_setField, objLike_coerceParsed]),
      getField_setField_self _ _ _ (by simp [objLike_setField, objLike_coerceParsed])]
  split <;> rfl

theorem normalizeTutorialObj_type (parsed title : JVal) :
    getField (normalizeTutorialObj parsed title) "type" = .str "tutorial" := by
  simp only [normalizeTutorialObj]
  rw [getField_setField_ne _ "warnings" "type" _ (by decide),
      getField_setField_ne _ "tips" "type" _ (by decide),
      apply_ite (fun o => getField o "type"),
      getField_setField_ne _ "steps" "type" _ (by decide),
      getField_setField_ne _ "steps" "type" _ (by decide),
      getField_setField_ne _ "materials" "type" _ (by decide),
      getField_setField_ne _ "intro" "type" _ (by decide),
      getField_setField_ne _ "title" "type" _ (by decide),
      getField_setField_ne _ "category" "type" _ (by decide),
      getField_setField_self _ _ _ (objLike_coerceParsed parsed),
      ite_self]

theorem normalizeRecipeObj_type (parsed title : JVal) :
    getField (normalizeRecipeObj parsed title) "type" = .str "recipe" := by
  simp only [normalizeRecipeObj]
  rw [getField_setField_ne _ "notes" "type" _ (by decide),
      apply_ite (fun o => getField o "type"),
      getField_setField_ne _ "steps" "type" _ (by decide),
      getField_setField_ne _ "steps" "type" _ (by decide),
      getField_setField_ne _ "ingredients" "type" _ (by decide),
      getField_setField_ne _ "intro" "type" _ (by decide),
      getField_setField_ne _ "title" "type" _ (by decide),
      getField_setField_ne _ "category" "type" _ (by decide),
      getField_setField_self _ _ _ (objLike_coerceParsed parsed),
      ite_self]

theorem normalizeTutorialObj_null (title : JVal) :
    normalizeTutorialObj .null title = minimalTutorialDoc title := rfl

-- ------------------------------ Claim C3 ------------------------------

theorem normalizeSteps_wellformed_list (alt : String) (raw : List JVal) (e : JVal)
    (he : e ∈ normalizeSteps alt raw) :
    ∃ sv instr, e = .obj [("step", sv), ("instruction", .str instr)] ∧ instr ≠ "" ∧
      ((∃ q, sv = .num q) ∨ sv = .nan) := by
  obtain ⟨i, s, _, hes, ht⟩ := normalizeSteps_mem alt raw e he
  obtain ⟨sv, instr, hshape, hnum⟩ := mkStepEntry_shape alt i s
  refine ⟨sv, instr, hes.trans hshape, ?_, hnum⟩
  rw [hes, hshape, getField_step_pair] at ht
  simpa [truthy] using ht

theorem stepsWellFormed_of_arr (d : JVal) (alt : String) (raw : List JVal)
    (h : getField d "steps" =
      .arr (if (normalizeSteps alt raw).isEmpty then [noStepsFallback]
            else normalizeSteps alt raw) []) :
    stepsWellFormed d := by
  refine ⟨_, h, ?_, ?_⟩
  · by_cases hL : (normalizeSteps alt raw).isEmpty
    · simp [hL]
    · rw [if_neg hL]
      simpa [List.isEmpty_iff] using hL
  · intro e he
    by_cases hL : (normalizeSteps alt raw).isEmpty
    · rw [if_pos hL] at he
      simp at he
      subst he
      exact ⟨.num 1, "No clear steps detected.", rfl, by decide, Or.inl ⟨1, rfl⟩⟩
    · rw [if_neg hL] at he
      exact normalizeSteps_wellformed_list alt raw e he

theorem stepsWellFormed_failed (d : JVal)
    (h : getField d "steps" = .arr [.obj [("step", .num 1),
      ("instruction", .str "Summary generation failed. Please try again.")]] []) :
    stepsWellFormed d := by
  refine ⟨_, h, by simp, ?_⟩
  intro e he
  simp at he
  subst he
  exact ⟨.num 1, _, rfl, by decide, Or.inl ⟨1, rfl⟩⟩

-- ------------------------------ Claim C5 ------------------------------

/-- C5 counterexample: when the tutorial content is malformed JSON (the
lenient parse finds nothing), the synthesizer returns the document whose only
step is the `No clear steps detected.` placeholder — not the claimed
`Summary generation failed. Please try again.` document, which is produced
only when the collaborator call itself throws. -/
theorem synthesizeTutorial_malformed_json_doc :
    stepInstructionsOf (synthesizeTutorial (fun _ => none) (.ok "not json") (.str "T")) =
      [some "No clear steps detected."] ∧
    ¬ stepInstructionsOf (synthesizeTutorial (fun _ => none) (.ok "not json") (.str "T")) =
      [some "Summary generation failed. Please try again."] := by
  constructor
  · rfl
  · intro hc
    have h1 : stepInstructionsOf
        (synthesizeTutorial (fun _ => none) (.ok "not json") (.str "T")) =
        [some "No clear steps detected."] := rfl
    rw [h1] at hc
    exact absurd hc (by decide)

/-- C5 amended: on a collaborator-call failure `synthesizeTutorial` returns
the fixed error document (step `Summary generation failed. Please try
again.`, warnings carrying the error note); on malformed content JSON it
returns the minimal normalized tutorial document whose only step is the
`No clear steps detected.` placeholder, with empty materials, tips and
warnings arrays; and for every collaborator outcome it returns a
`tutorial`-typed document — no exception propagates out of this stage. -/
theorem synthesizeTutorial_total_fallbacks (jp : String → Option JVal)
    (content e : String) (title : JVal) :
    (synthesizeTutorial jp (.error e) title =
      .obj [("type", .str "tutorial"), ("category", .str "tutorial"),
            ("title", jsOr title (.str "Tutorial")),
            ("intro", .str "Tutorial generation failed due to AI processing error."),
            ("materials", .arr [] []),
            ("steps", .arr [.obj [("step", .num 1),
              ("instruction", .str "Summary generation failed. Please try again.")]] []),
            ("tips", .arr [] []),
            ("warnings", .arr [.str ("Error: " ++ e)] [])]) ∧
    (jp (jsonPayload content) = none →
      synthesizeTutorial jp (.ok content) title = minimalTutorialDoc title) ∧
    (∀ chat : Except String String,
      getField (synthesizeTutorial jp chat title) "type" = .str "tutorial") := by
  refine ⟨rfl, fun h => ?_, fun chat => ?_⟩
  · show normalizeTutorialObj (parseJsonFromContent jp content .null) title = _
    unfold parseJsonFromContent
    rw [h]
    exact normalizeTutorialObj_null title
  · cases chat with
    | error e2 => rfl
    | ok c => exact normalizeTutorialObj_type _ _

/-- C5 witness: the malformed-JSON branch evaluated at concrete inputs. -/
theorem synthesizeTutorial_total_fallbacks_w :
    synthesizeTutorial (fun _ => none) (.ok "x") (.str "T") =
      minimalTutorialDoc (.str "T") :=
  (synthesizeTutorial_total_fallbacks (fun _ => none) "x" "" (.str "T")).2.1 rfl

-- ------------------------------ Claim C2 ------------------------------

/-- C2 counterexample: a parsed recipe whose single step carries `step: 5`
keeps the number 5 in the output — steps are not renumbered 1..N (a single
surviving entry would have to be numbered 1). -/
theorem steps_not_renumbered :
    stepNumbersOf (synthesizeRecipe
      (fun s => if s = "\x7b\"steps\":[\x7b\"step\":5,\"instruction\":\"mix\"\x7d]\x7d"
        then some (.obj [("steps",
          .arr [.obj [("step", .num 5), ("instruction", .str "mix")]] [])]) else none)
      (.ok "\x7b\"steps\":[\x7b\"step\":5,\"instruction\":\"mix\"\x7d]\x7d") (.str "T")) =
      [some 5] ∧
    ¬ [some (5 : Rat)] = [some (1 : Rat)] := by
  constructor
  · rfl
  · intro hc
    simp at hc

/-- C2 amended: in both synthesizers, for every collaborator outcome the
steps field is a nonempty array of step/instruction objects whose
instructions are nonempty strings (entries with empty instructions are
dropped); if no parsed step survives the filter the steps are exactly the
single `No clear steps detected.` placeholder; and every surviving entry is
the translation of the raw entry at its original index — its step number is
`Number` of the entry's own `step` field (or original position + 1 when that
field is nullish), not its 1-based position in the surviving list. -/
theorem synthesize_steps_wellformed (jp : String → Option JVal)
    (chat : Except String String) (title : JVal) :
    stepsWellFormed (synthesizeRecipe jp chat title) ∧
    stepsWellFormed (synthesizeTutorial jp chat title) ∧
    (∀ content, chat = .ok content →
      (normalizeSteps "action" (stepsArrOf (coerceParsed
        (parseJsonFromContent jp content .null)))).isEmpty = true →
      getField (synthesizeRecipe jp chat title) "steps" = .arr [noStepsFallback] []) ∧
    (∀ content, chat = .ok content →
      (normalizeSteps "title" (stepsArrOf (coerceParsed
        (parseJsonFromContent jp content .null)))).isEmpty = true →
      getField (synthesizeTutorial jp chat title) "steps" = .arr [noStepsFallback] []) ∧
    (∀ alt raw, ∀ e ∈ normalizeSteps alt raw,
      ∃ i s, raw[i]? = some s ∧ e = mkStepEntry alt i s) := by
  refine ⟨?_, ?_, ?_, ?_, ?_⟩
  · cases chat with
    | error e => exact stepsWellFormed_failed _ rfl
    | ok c => exact stepsWellFormed_of_arr _ "action" _ (normalizeRecipeObj_steps _ title)
  · cases chat with
    | error e => exact stepsWellFormed_failed _ rfl
    | ok c => exact stepsWellFormed_of_arr _ "title" _ (normalizeTutorialObj_steps _ title)
  · intro content hc hL
    subst hc
    rw [show synthesizeRecipe jp (.ok content) title =
        normalizeRecipeObj (parseJsonFromContent jp content .null) title from rfl,
      normalizeRecipeObj_steps, if_pos hL]
  · intro content hc hL
    subst hc
    rw [show synthesizeTutorial jp (.ok content) title =
        normalizeTutorialObj (parseJsonFromContent jp content .null) title from rfl,
      normalizeTutorialObj_steps, if_pos hL]
  · intro alt raw e he
    obtain ⟨i, s, h1, h2, _⟩ := normalizeSteps_mem alt raw e he
    exact ⟨i, s, h1, h2⟩

/-- C2 witness: both placeholder branches of the theorem at a malformed
content (no steps survive, so each synthesizer installs the single
placeholder step). -/
theorem synthesize_steps_wellformed_w :
    getField (synthesizeRecipe (fun _ => none) (.ok "x") (.str "T")) "steps" =
      .arr [noStepsFallback] [] ∧
    getField (synthesizeTutorial (fun _ => none) (.ok "x") (.str "T")) "steps" =
      .arr [noStepsFallback] [] :=
  ⟨(synthesize_steps_wellformed (fun _ => none) (.ok "x") (.str "T")).2.2.1 "x" rfl rfl,
   (synthesize_steps_wellformed (fun _ => none) (.ok "x") (.str "T")).2.2.2.1 "x" rfl rfl⟩

-- ---------- normalizeForUI lemmas (claims C7, C8 infrastructure) ----------

theorem isStrVal_undefined (t : String) : isStrVal .undefined t = false := rfl

theorem isStrVal_iff (v : JVal) (t : String) : isStrVal v t = true ↔ v = .str t := by
  cases v <;> simp [isStrVal]

theorem objLike_of_getField_ne_undefined (s : JVal) (k : String)
    (h : ¬ getField s k = .undefined) : objLike s = true := by
  cases s <;> first | rfl | exact absurd rfl h

theorem hasField_of_isArray (s : JVal) (k : String)
    (h : isArray (getField s k) = true) : hasField s k = true := by
  refine hasField_of_getField_ne_undefined s k (fun hc => ?_)
  rw [hc] at h
  simp [isArray] at h

theorem hasField_of_isString (s : JVal) (k : String)
    (h : isString (getField s k) = true) : hasField s k = true := by
  refine hasField_of_getField_ne_undefined s k (fun hc => ?_)
  rw [hc] at h
  simp [isString] at h

theorem hasField_of_truthy (s : JVal) (k : String)
    (h : truthy (getField s k) = true) : hasField s k = true :=
  hasField_of_getField_ne_undefined s k (getField_ne_undef_of_truthy s k h)

theorem getField_if_pres (c : Prop) [Decidable c] (f : JVal → JVal) (x : JVal) (k : String)
    (hf : getField (f x) k = getField x k) :
    getField (if c then f x else x) k = getField x k := by
  by_cases hc : c <;> simp [hc, hf]

theorem normTutorialFields_get_ne (s : JVal) (k : String)
    (h1 : ¬ "intro" = k) (h2 : ¬ "materials" = k) (h3 : ¬ "steps" = k)
    (h4 : ¬ "tips" = k) (h5 : ¬ "warnings" = k) :
    getField (normTutorialFields s) k = getField s k := by
  simp only [normTutorialFields]
  rw [getField_setField_ne _ _ _ _ h5, getField_setField_ne _ _ _ _ h4,
      getField_setField_ne _ _ _ _ h3, getField_setField_ne _ _ _ _ h2,
      getField_setField_ne _ _ _ _ h1]

theorem normRecipeFields_get_ne (s : JVal) (k : String)
    (h1 : ¬ "intro" = k) (h2 : ¬ "ingredients" = k) (h3 : ¬ "steps" = k)
    (h4 : ¬ "notes" = k) :
    getField (normRecipeFields s) k = getField s k := by
  simp only [normRecipeFields]
  rw [getField_setField_ne _ _ _ _ h4, getField_setField_ne _ _ _ _ h3,
      getField_setField_ne _ _ _ _ h2, getField_setField_ne _ _ _ _ h1]

theorem normStoryFields_get_ne (s : JVal) (k : String)
    (h1 : ¬ "transcript" = k) (h2 : ¬ "keyTakeaways" = k) (h3 : ¬ "quotes" = k) :
    getField (normStoryFields s) k = getField s k := by
  simp only [normStoryFields]
  rw [getField_setField_ne _ _ _ _ h3, getField_setField_ne _ _ _ _ h2]
  split
  · rw [getField_setField_ne _ _ _ _ h1]
  · rw [getField_setField_ne _ _ _ _ h1]

theorem objLike_normTutorialFields (s : JVal) :
    objLike (normTutorialFields s) = objLike s := by
  simp [normTutorialFields, objLike_setField]

theorem objLike_normRecipeFields (s : JVal) :
    objLike (normRecipeFields s) = objLike s := by
  simp [normRecipeFields, objLike_setField]

theorem objLike_normStoryFields (s : JVal) :
    objLike (normStoryFields s) = objLike s := by
  simp only [normStoryFields]
  rw [objLike_setField, objLike_setField]
  split <;> rw [objLike_setField]

theorem truthy_normTutorialFields (s : JVal) :
    truthy (normTutorialFields s) = truthy s := by
  simp [normTutorialFields, truthy_setField]

theorem truthy_normRecipeFields (s : JVal) :
    truthy (normRecipeFields s) = truthy s := by
  simp [normRecipeFields, truthy_setField]

theorem truthy_normStoryFields (s : JVal) :
    truthy (normStoryFields s) = truthy s := by
  simp only [normStoryFields]
  rw [truthy_setField, truthy_setField]
  split <;> rw [truthy_setField]

theorem isString_strDefault (a : JVal) :
    isString (if isString a = true then a else .str "") = true := by
  by_cases h : isString a = true
  · simp [h]
  · simp only [h, if_false]
    rfl

theorem isArray_matDefault (a b : JVal) :
    isArray (if isArray a = true then a
             else if isArray b = true then b else .arr [] []) = true := by
  by_cases h : isArray a = true
  · simp [h]
  · simp only [h, if_false]
    by_cases h2 : isArray b = true
    · simp [h2]
    · simp only [h2, if_false]
      rfl

theorem normTutorialFields_shapes (s : JVal) (hs : objLike s = true) :
    isString (getField (normTutorialFields s) "intro") = true ∧
    isArray (getField (normTutorialFields s) "materials") = true ∧
    isArray (getField (normTutorialFields s) "steps") = true ∧
    isArray (getField (normTutorialFields s) "tips") = true ∧
    isArray (getField (normTutorialFields s) "warnings") = true := by
  simp only [normTutorialFields]
  refine ⟨?_, ?_, ?_, ?_, ?_⟩
  · rw [getField_setField_ne _ "warnings" "intro" _ (by decide),
        getField_setField_ne _ "tips" "intro" _ (by decide),
        getField_setField_ne _ "steps" "intro" _ (by decide),
        getField_setField_ne _ "materials" "intro" _ (by decide),
        getField_setField_self _ _ _ hs]
    exact isString_strDefault _
  · rw [getField_setField_ne _ "warnings" "materials" _ (by decide),
        getField_setField_ne _ "tips" "materials" _ (by decide),
        getField_setField_ne _ "steps" "materials" _ (by decide),
        getField_setField_self _ _ _ (by rw [objLike_setField]; exact hs)]
    exact isArray_matDefault _ _
  · rw [getField_setField_ne _ "warnings" "steps" _ (by decide),
        getField_setField_ne _ "tips" "steps" _ (by decide),
        getField_setField_self _ _ _ (by rw [objLike_setField, objLike_setField]; exact hs)]
    exact isArray_ensureArr _
  · rw [getField_setField_ne _ "warnings" "tips" _ (by decide),
        getField_setField_self _ _ _
          (by rw [objLike_setField, objLike_setField, objLike_setField]; exact hs)]
    exact isArray_ensureArr _
  · rw [getField_setField_self _ _ _
      (by rw [objLike_setField, objLike_setField, objLike_setField, objLike_setField];
          exact hs)]
    exact isArray_ensureArr _

theorem normRecipeFields_shapes (s : JVal) (hs : objLike s = true) :
    isString (getField (normRecipeFields s) "intro") = true ∧
    isArray (getField (normRecipeFields s) "ingredients") = true ∧
    isArray (getField (normRecipeFields s) "steps") = true ∧
    isArray (getField (normRecipeFields s) "notes") = true := by
  simp only [normRecipeFields]
  refine ⟨?_, ?_, ?_, ?_⟩
  · rw [getField_setField_ne _ "notes" "intro" _ (by decide),
        getField_setField_ne _ "steps" "intro" _ (by decide),
        getField_setField_ne _ "ingredients" "intro" _ (by decide),
        getField_setField_self _ _ _ hs]
    exact isString_strDefault _
  · rw [getField_setField_ne _ "notes" "ingredients" _ (by decide),
        getField_setField_ne _ "steps" "ingredients" _ (by decide),
        getField_setField_self _ _ _ (by rw [objLike_setField]; exact hs)]
    exact isArray_ensureArr _
  · rw [getField_setField_ne _ "notes" "steps" _ (by decide),
        getField_setField_self _ _ _ (by rw [objLike_setField, objLike_setField]; exact hs)]
    exact isArray_ensureArr _
  · rw [getField_setField_self _ _ _
      (by rw [objLike_setField, objLike_setField, objLike_setField]; exact hs)]
    exact isArray_ensureArr _

theorem normTutorialFields_fixed (s : JVal)
    (hI : isString (getField s "intro") = true)
    (hM : isArray (getField s "materials") = true)
    (hS : isArray (getField s "steps") = true)
    (hT : isArray (getField s "tips") = true)
    (hW : isArray (getField s "warnings") = true) :
    normTutorialFields s = s := by
  have e1 : setField s "intro"
      (if isString (getField s "intro") = true then getField s "intro" else .str "") = s := by
    rw [if_pos hI]
    exact setField_getField_of_has _ _ (hasField_of_isString _ _ hI)
  have e2 : setField s "materials"
      (if isArray (getField s "materials") = true then getField s "materials"
       else if isArray (getField s "materialsNeeded") = true then getField s "materialsNeeded"
       else .arr [] []) = s := by
    rw [if_pos hM]
    exact setField_getField_of_has _ _ (hasField_of_isArray _ _ hM)
  have e3 : setField s "steps" (ensureArr (getField s "steps")) = s := by
    rw [ensureArr_of_isArray _ hS]
    exact setField_getField_of_has _ _ (hasField_of_isArray _ _ hS)
  have e4 : setField s "tips" (ensureArr (getField s "tips")) = s := by
    rw [ensureArr_of_isArray _ hT]
    exact setField_getField_of_has _ _ (hasField_of_isArray _ _ hT)
  have e5 : setField s "warnings" (ensureArr (getField s "warnings")) = s := by
    rw [ensureArr_of_isArray _ hW]
    exact setField_getField_of_has _ _ (hasField_of_isArray _ _ hW)
  simp only [normTutorialFields]
  rw [e1, e2, e3, e4, e5]

theorem normRecipeFields_fixed (s : JVal)
    (hI : isString (getField s "intro") = true)
    (hG : isArray (getField s "ingredients") = true)
    (hS : isArray (getField s "steps") = true)
    (hN : isArray (getField s "notes") = true) :
    normRecipeFields s = s := by
  have e1 : setField s "intro"
      (if isString (getField s "intro") = true then getField s "intro" else .str "") = s := by
    rw [if_pos hI]
    exact setField_getField_of_has _ _ (hasField_of_isString _ _ hI)
  have e2 : setField s "ingredients" (ensureArr (getField s "ingredients")) = s := by
    rw [ensureArr_of_isArray _ hG]
    exact setField_getField_of_has _ _ (hasField_of_isArray _ _ hG)
  have e3 : setField s "steps" (ensureArr (getField s "steps")) = s := by
    rw [ensureArr_of_isArray _ hS]
    exact setField_getField_of_has _ _ (hasField_of_isArray _ _ hS)
  have e4 : setField s "notes" (ensureArr (getField s "notes")) = s := by
    rw [ensureArr_of_isArray _ hN]
    exact setField_getField_of_has _ _ (hasField_of_isArray _ _ hN)
  simp only [normRecipeFields]
  rw [e1, e2, e3, e4]

theorem objLike_of_truthy_typeof (v : JVal) (h1 : truthy v = true)
    (h2 : typeofIsObject v = true) : objLike v = true := by
  cases v <;> simp_all [truthy, typeofIsObject, objLike]

theorem normStoryFields_eq (s : JVal) (_hs : objLike s = true) :
    ∃ T, normStoryFields s =
      setField (setField (setField s "transcript" T) "keyTakeaways"
        (ensureArr (getField s "keyTakeaways"))) "quotes"
        (ensureArr (getField s "quotes")) ∧
      truthy T = true ∧ typeofIsObject T = true ∧
      jsOr (getField T "verbatim") (.str "") = getField T "verbatim" ∧
      jsOr (getField T "readable") (.str "") = getField T "readable" := by
  simp only [normStoryFields]
  split
  · refine ⟨.obj [("verbatim", .str ""), ("readable", .str "")], ?_, rfl, rfl, rfl, rfl⟩
    rw [getField_setField_ne _ "transcript" "keyTakeaways" _ (by decide),
        getField_setField_ne _ "keyTakeaways" "quotes" _ (by decide),
        getField_setField_ne _ "transcript" "quotes" _ (by decide)]
  · rename_i hcond
    have hc2 : truthy (getField s "transcript") = true ∧
        typeofIsObject (getField s "transcript") = true := by
      cases h1 : truthy (getField s "transcript")
      · exact absurd (by simp [h1]) hcond
      · cases h2 : typeofIsObject (getField s "transcript")
        · exact absurd (by simp [h2]) hcond
        · exact ⟨rfl, rfl⟩
    have hto : objLike (getField s "transcript") = true :=
      objLike_of_truthy_typeof _ hc2.1 hc2.2
    refine ⟨setField (setField (getField s "transcript") "verbatim"
        (jsOr (getField (getField s "transcript") "verbatim") (.str "")))
        "readable"
        (jsOr (getField (setField (getField s "transcript") "verbatim"
          (jsOr (getField (getField s "transcript") "verbatim") (.str ""))) "readable")
          (.str "")), ?_, ?_, ?_, ?_, ?_⟩
    · rw [getField_setField_ne _ "transcript" "keyTakeaways" _ (by decide),
          getField_setField_ne _ "keyTakeaways" "quotes" _ (by decide),
          getField_setField_ne _ "transcript" "quotes" _ (by decide)]
    · rw [truthy_setField, truthy_setField]
      exact hc2.1
    · rw [typeofIsObject_setField, typeofIsObject_setField]
      exact hc2.2
    · rw [getField_setField_ne _ "readable" "verbatim" _ (by decide),
          getField_setField_self _ _ _ hto]
      exact jsOr_empty_idem _
    · rw [getField_setField_self _ _ _ (by rw [objLike_setField]; exact hto),
          getField_setField_ne _ "verbatim" "readable" _ (by decide)]
      exact jsOr_empty_idem _

theorem normStoryFields_shapes (s : JVal) (hs : objLike s = true) :
    isArray (getField (normStoryFields s) "keyTakeaways") = true ∧
    isArray (getField (normStoryFields s) "quotes") = true ∧
    truthy (getField (normStoryFields s) "transcript") = true ∧
    typeofIsObject (getField (normStoryFields s) "transcript") = true ∧
    jsOr (getField (getField (normStoryFields s) "transcript") "verbatim") (.str "") =
      getField (getField (normStoryFields s) "transcript") "verbatim" ∧
    jsOr (getField (getField (normStoryFields s) "transcript") "readable") (.str "") =
      getField (getField (normStoryFields s) "transcript") "readable" := by
  obtain ⟨T, hEq, hT1, hT2, hT3, hT4⟩ := normStoryFields_eq s hs
  rw [hEq]
  have htr : getField (setField (setField (setField s "transcript" T) "keyTakeaways"
      (ensureArr (getField s "keyTakeaways"))) "quotes"
      (ensureArr (getField s "quotes"))) "transcript" = T := by
    rw [getField_setField_ne _ "quotes" "transcript" _ (by decide),
        getField_setField_ne _ "keyTakeaways" "transcript" _ (by decide),
        getField_setField_self _ _ _ hs]
  refine ⟨?_, ?_, ?_, ?_, ?_, ?_⟩
  · rw [getField_setField_ne _ "quotes" "keyTakeaways" _ (by decide),
        getField_setField_self _ _ _ (by rw [objLike_setField]; exact hs)]
    exact isArray_ensureArr _
  · rw [getField_setField_self _ _ _ (by rw [objLike_setField, objLike_setField]; exact hs)]
    exact isArray_ensureArr _
  · rw [htr]; exact hT1
  · rw [htr]; exact hT2
  · rw [htr]; exact hT3
  · rw [htr]; exact hT4

theorem normStoryFields_fixed (s : JVal)
    (ht : truthy (getField s "transcript") = true)
    (hto : typeofIsObject (getField s "transcript") = true)
    (hv : jsOr (getField (getField s "transcript") "verbatim") (.str "") =
      getField (getField s "transcript") "verbatim")
    (hr : jsOr (getField (getField s "transcript") "readable") (.str "") =
      getField (getField s "transcript") "readable")
    (hk : isArray (getField s "keyTakeaways") = true)
    (hq : isArray (getField s "quotes") = true) :
    normStoryFields s = s := by
  have hobj : objLike (getField s "transcript") = true := objLike_of_truthy_typeof _ ht hto
  have hhasV : hasField (getField s "transcript") "verbatim" = true := by
    refine hasField_of_getField_ne_undefined _ _ (fun hc => ?_)
    rw [hc] at hv
    simp [jsOr, truthy] at hv
  have hhasR : hasField (getField s "transcript") "readable" = true := by
    refine hasField_of_getField_ne_undefined _ _ (fun hc => ?_)
    rw [hc] at hr
    simp [jsOr, truthy] at hr
  simp only [normStoryFields]
  rw [if_neg (by simp [ht, hto])]
  have e1 : setField (getField s "transcript") "verbatim"
      (jsOr (getField (getField s "transcript") "verbatim") (.str "")) =
      getField s "transcript" := by
    rw [hv]
    exact setField_getField_of_has _ _ hhasV
  rw [e1]
  have e2 : setField (getField s "transcript") "readable"
      (jsOr (getField (getField s "transcript") "readable") (.str "")) =
      getField s "transcript" := by
    rw [hr]
    exact setField_getField_of_has _ _ hhasR
  rw [e2]
  have e3 : setField s "transcript" (getField s "transcript") = s :=
    setField_getField_of_has _ _ (hasField_of_truthy _ _ ht)
  rw [e3]
  have e4 : setField s "keyTakeaways" (ensureArr (getField s "keyTakeaways")) = s := by
    rw [ensureArr_of_isArray _ hk]
    exact setField_getField_of_has _ _ (hasField_of_isArray _ _ hk)
  rw [e4]
  rw [ensureArr_of_isArray _ hq]
  exact setField_getField_of_has _ _ (hasField_of_isArray _ _ hq)

theorem normalizeForUIBody_prim (s0 : JVal) (r : String) (h : objLike s0 = false) :
    normalizeForUIBody s0 r = s0 := by
  have hset : ∀ k v, setField s0 k v = s0 := fun k v => setField_id_of_not_objLike _ k v h
  have hget : ∀ k, getField s0 k = JVal.undefined := fun k => getField_undef_of_not_objLike _ k h
  simp only [normalizeForUIBody, hset, hget, isStrVal_undefined]
  simp only [Bool.false_eq_true, if_false]
  simp only [hset, hget, isStrVal_undefined]
  simp only [Bool.false_eq_true, if_false]
  simp only [hset, hget, isStrVal_undefined]
  simp

theorem truthy_normalizeForUIBody (s0 : JVal) (r : String) :
    truthy (normalizeForUIBody s0 r) = truthy s0 := by
  simp only [normalizeForUIBody]
  split <;> split <;> split <;>
    simp only [truthy_normStoryFields, truthy_normRecipeFields, truthy_normTutorialFields,
      truthy_setField]

theorem objLike_normalizeForUIBody (s0 : JVal) (r : String) :
    objLike (normalizeForUIBody s0 r) = objLike s0 := by
  simp only [normalizeForUIBody]
  split <;> split <;> split <;>
    simp only [objLike_normStoryFields, objLike_normRecipeFields, objLike_normTutorialFields,
      objLike_setField]

theorem truthy_jsOr_obj (s : JVal) : truthy (jsOr s (.obj [])) = true := by
  by_cases h : truthy s = true
  · rw [jsOr_of_truthy _ _ h]; exact h
  · rw [jsOr_of_not_truthy _ _ (by simpa using h)]; rfl

theorem truthy_jsOr_right (a b : JVal) (hb : truthy b = true) :
    truthy (jsOr a b) = true := by
  by_cases h : truthy a = true
  · rw [jsOr_of_truthy _ _ h]; exact h
  · rw [jsOr_of_not_truthy _ _ (by simpa using h)]; exact hb

theorem normTypeOf_cases (r : String) :
    normTypeOf r = "recipe" ∨ normTypeOf r = "tutorial" ∨ normTypeOf r = "general" := by
  unfold normTypeOf
  split_ifs <;> simp

theorem jsLower_normTypeOf (r : String) : jsLower (normTypeOf r) = normTypeOf r := by
  rcases normTypeOf_cases r with h | h | h <;> rw [h] <;> decide

theorem normTypeOf_idem (r : String) : normTypeOf (normTypeOf r) = normTypeOf r := by
  rcases normTypeOf_cases r with h | h | h <;> rw [h] <;> decide

theorem truthy_str_normTypeOf (r : String) : truthy (.str (normTypeOf r)) = true := by
  rcases normTypeOf_cases r with h | h | h <;> rw [h] <;> decide

theorem normalizeForUIBody_spec (s0 : JVal) (r : String) (hobj : objLike s0 = true) :
    getField (normalizeForUIBody s0 r) "type" =
      jsOr (getField s0 "type") (.str (normTypeOf r)) ∧
    getField (normalizeForUIBody s0 r) "category" =
      jsOr (getField s0 "category") (.str (normTypeOf r)) ∧
    objLike (normalizeForUIBody s0 r) = true ∧
    (isStrVal (jsOr (getField s0 "type") (.str (normTypeOf r))) "tutorial" = true →
      isString (getField (normalizeForUIBody s0 r) "intro") = true ∧
      isArray (getField (normalizeForUIBody s0 r) "materials") = true ∧
      isArray (getField (normalizeForUIBody s0 r) "steps") = true ∧
      isArray (getField (normalizeForUIBody s0 r) "tips") = true ∧
      isArray (getField (normalizeForUIBody s0 r) "warnings") = true) ∧
    (isStrVal (jsOr (getField s0 "type") (.str (normTypeOf r))) "recipe" = true →
      isString (getField (normalizeForUIBody s0 r) "intro") = true ∧
      isArray (getField (normalizeForUIBody s0 r) "ingredients") = true ∧
      isArray (getField (normalizeForUIBody s0 r) "steps") = true ∧
      isArray (getField (normalizeForUIBody s0 r) "notes") = true) ∧
    ((isStrVal (jsOr (getField s0 "type") (.str (normTypeOf r))) "story" ||
      isStrVal (jsOr (getField s0 "category") (.str (normTypeOf r))) "general") = true →
      isArray (getField (normalizeForUIBody s0 r) "keyTakeaways") = true ∧
      isArray (getField (normalizeForUIBody s0 r) "quotes") = true ∧
      truthy (getField (normalizeForUIBody s0 r) "transcript") = true ∧
      typeofIsObject (getField (normalizeForUIBody s0 r) "transcript") = true ∧
      jsOr (getField (getField (normalizeForUIBody s0 r) "transcript") "verbatim")
        (.str "") = getField (getField (normalizeForUIBody s0 r) "transcript") "verbatim" ∧
      jsOr (getField (getField (normalizeForUIBody s0 r) "transcript") "readable")
        (.str "") = getField (getField (normalizeForUIBody s0 r) "transcript") "readable") := by
  simp only [normalizeForUIBody]
  set nt := normTypeOf r with hnt
  set Tv := jsOr (getField s0 "type") (.str nt) with hTv
  set s1 := setField s0 "type" Tv with hs1
  rw [show getField s1 "category" = getField s0 "category" from by
    rw [hs1]; exact getField_setField_ne _ _ _ _ (by decide)]
  set Cv := jsOr (getField s0 "category") (.str nt) with hCv
  set s2 := setField s1 "category" Cv with hs2
  have hobj2 : objLike s2 = true := by
    rw [hs2, objLike_setField, hs1, objLike_setField]; exact hobj
  have hT2 : getField s2 "type" = Tv := by
    rw [hs2, getField_setField_ne _ "category" "type" _ (by decide), hs1,
      getField_setField_self _ _ _ hobj]
  have hC2 : getField s2 "category" = Cv := by
    rw [hs2, getField_setField_self _ _ _ (by rw [hs1, objLike_setField]; exact hobj)]
  rw [hT2]
  set s3 := (if isStrVal Tv "tutorial" = true then normTutorialFields s2 else s2) with hs3
  have hobj3 : objLike s3 = true := by
    rw [hs3]; split
    · rw [objLike_normTutorialFields]; exact hobj2
    · exact hobj2
  have hT3 : getField s3 "type" = Tv := by
    rw [hs3, getField_if_pres _ _ _ _ (normTutorialFields_get_ne s2 "type"
      (by decide) (by decide) (by decide) (by decide) (by decide))]
    exact hT2
  have hC3 : getField s3 "category" = Cv := by
    rw [hs3, getField_if_pres _ _ _ _ (normTutorialFields_get_ne s2 "category"
      (by decide) (by decide) (by decide) (by decide) (by decide))]
    exact hC2
  rw [hT3]
  set s4 := (if isStrVal Tv "recipe" = true then normRecipeFields s3 else s3) with hs4
  have hobj4 : objLike s4 = true := by
    rw [hs4]; split
    · rw [objLike_normRecipeFields]; exact hobj3
    · exact hobj3
  have hT4 : getField s4 "type" = Tv := by
    rw [hs4, getField_if_pres _ _ _ _ (normRecipeFields_get_ne s3 "type"
      (by decide) (by decide) (by decide) (by decide))]
    exact hT3
  have hC4 : getField s4 "category" = Cv := by
    rw [hs4, getField_if_pres _ _ _ _ (normRecipeFields_get_ne s3 "category"
      (by decide) (by decide) (by decide) (by decide))]
    exact hC3
  rw [hT4, hC4]
  set s5 := (if (isStrVal Tv "story" || isStrVal Cv "general") = true
    then normStoryFields s4 else s4) with hs5
  have hT5 : getField s5 "type" = Tv := by
    rw [hs5, getField_if_pres _ _ _ _ (normStoryFields_get_ne s4 "type"
      (by decide) (by decide) (by decide))]
    exact hT4
  have hC5 : getField s5 "category" = Cv := by
    rw [hs5, getField_if_pres _ _ _ _ (normStoryFields_get_ne s4 "category"
      (by decide) (by decide) (by decide))]
    exact hC4
  have hobj5 : objLike s5 = true := by
    rw [hs5]; split
    · rw [objLike_normStoryFields]; exact hobj4
    · exact hobj4
  have pres5 : ∀ k, ¬ "transcript" = k → ¬ "keyTakeaways" = k → ¬ "quotes" = k →
      getField s5 k = getField s4 k := by
    intro k p1 p2 p3
    rw [hs5]
    exact getField_if_pres _ _ _ _ (normStoryFields_get_ne s4 k p1 p2 p3)
  refine ⟨hT5, hC5, hobj5, ?_, ?_, ?_⟩
  · intro hc1
    have hTvt : Tv = .str "tutorial" := (isStrVal_iff _ _).mp hc1
    have h3 : s3 = normTutorialFields s2 := by rw [hs3, if_pos hc1]
    have h4 : s4 = s3 := by
      rw [hs4, hTvt]; exact if_neg (by decide)
    have shapes := normTutorialFields_shapes s2 hobj2
    refine ⟨?_, ?_, ?_, ?_, ?_⟩
    · rw [pres5 "intro" (by decide) (by decide) (by decide), h4, h3]
      exact shapes.1
    · rw [pres5 "materials" (by decide) (by decide) (by decide), h4, h3]
      exact shapes.2.1
    · rw [pres5 "steps" (by decide) (by decide) (by decide), h4, h3]
      exact shapes.2.2.1
    · rw [pres5 "tips" (by decide) (by decide) (by decide), h4, h3]
      exact shapes.2.2.2.1
    · rw [pres5 "warnings" (by decide) (by decide) (by decide), h4, h3]
      exact shapes.2.2.2.2
  · intro hc2
    have hTvr : Tv = .str "recipe" := (isStrVal_iff _ _).mp hc2
    have h4 : s4 = normRecipeFields s3 := by rw [hs4, if_pos hc2]
    have shapes := normRecipeFields_shapes s3 hobj3
    refine ⟨?_, ?_, ?_, ?_⟩
    · rw [pres5 "intro" (by decide) (by decide) (by decide), h4]
      exact shapes.1
    · rw [pres5 "ingredients" (by decide) (by decide) (by decide), h4]
      exact shapes.2.1
    · rw [pres5 "steps" (by decide) (by decide) (by decide), h4]
      exact shapes.2.2.1
    · rw [pres5 "notes" (by decide) (by decide) (by decide), h4]
      exact shapes.2.2.2
  · intro hc3
    have h5 : s5 = normStoryFields s4 := by rw [hs5, if_pos hc3]
    have shapes := normStoryFields_shapes s4 hobj4
    rw [h5]
    exact shapes

-- ------------------------------ Claim C7 ------------------------------

/-- C7: after `normalizeForUI` completes, every field declared as an array in
the schema of the resulting document's type is present and is an array:
`materials`, `steps`, `tips`, `warnings` for tutorial documents;
`ingredients`, `steps`, `notes` for recipe documents; and `keyTakeaways`,
`quotes` for story/general documents. -/
theorem normalizeForUI_array_fields (s a d : JVal)
    (h : normalizeForUI s a = some d) :
    (getField d "type" = .str "tutorial" →
      isArray (getField d "materials") = true ∧ isArray (getField d "steps") = true ∧
      isArray (getField d "tips") = true ∧ isArray (getField d "warnings") = true) ∧
    (getField d "type" = .str "recipe" →
      isArray (getField d "ingredients") = true ∧ isArray (getField d "steps") = true ∧
      isArray (getField d "notes") = true) ∧
    (getField d "type" = .str "story" ∨ getField d "category" = .str "general" →
      isArray (getField d "keyTakeaways") = true ∧
      isArray (getField d "quotes") = true) := by
  simp only [normalizeForUI] at h
  set s0 := jsOr s (.obj []) with hs0
  rcases hlt : jsToLowerString (jsOr (getField a "contentType")
      (jsOr (getField s0 "type") (jsOr (getField s0 "category") (.str "general"))))
    with _ | rawType
  · rw [hlt] at h
    simp at h
  · rw [hlt] at h
    have hd : d = normalizeForUIBody s0 rawType := by
      injection h with h2
      exact h2.symm
    rw [hd]
    by_cases hobj : objLike s0 = true
    · obtain ⟨hT, hC, _, htut, hrec, hstory⟩ := normalizeForUIBody_spec s0 rawType hobj
      refine ⟨fun ht => ?_, fun ht => ?_, fun ht => ?_⟩
      · have hc1 : isStrVal (jsOr (getField s0 "type")
            (.str (normTypeOf rawType))) "tutorial" = true := by
          rw [isStrVal_iff, ← hT]
          exact ht
        obtain ⟨_, m, st, ti, w⟩ := htut hc1
        exact ⟨m, st, ti, w⟩
      · have hc2 : isStrVal (jsOr (getField s0 "type")
            (.str (normTypeOf rawType))) "recipe" = true := by
          rw [isStrVal_iff, ← hT]
          exact ht
        obtain ⟨_, g, st, n⟩ := hrec hc2
        exact ⟨g, st, n⟩
      · have hc3 : (isStrVal (jsOr (getField s0 "type") (.str (normTypeOf rawType))) "story" ||
            isStrVal (jsOr (getField s0 "category")
              (.str (normTypeOf rawType))) "general") = true := by
          rcases ht with ht | ht
          · rw [(isStrVal_iff (jsOr (getField s0 "type")
                (.str (normTypeOf rawType))) "story").mpr (by rw [← hT]; exact ht)]
            rfl
          · rw [(isStrVal_iff (jsOr (getField s0 "category")
                (.str (normTypeOf rawType))) "general").mpr (by rw [← hC]; exact ht)]
            exact Bool.or_true _
        obtain ⟨k, q, _⟩ := hstory hc3
        exact ⟨k, q⟩
    · have hobj' : objLike s0 = false := by simpa using hobj
      rw [normalizeForUIBody_prim s0 rawType hobj']
      have hu : ∀ k, getField s0 k = JVal.undefined :=
        fun k => getField_undef_of_not_objLike _ k hobj'
      refine ⟨fun ht => ?_, fun ht => ?_, fun ht => ?_⟩
      · rw [hu] at ht
        exact JVal.noConfusion ht
      · rw [hu] at ht
        exact JVal.noConfusion ht
      · rcases ht with ht | ht <;> rw [hu] at ht <;> exact JVal.noConfusion ht

/-- C7 witness: the theorem applied to the empty summary and empty analysis
(a general-typed document with `keyTakeaways`/`quotes` arrays). -/
theorem normalizeForUI_array_fields_w :
    isArray (getField (JVal.obj [("type", .str "general"), ("category", .str "general"),
      ("transcript", .obj [("verbatim", .str ""), ("readable", .str "")]),
      ("keyTakeaways", .arr [] []), ("quotes", .arr [] [])]) "keyTakeaways") = true ∧
    isArray (getField (JVal.obj [("type", .str "general"), ("category", .str "general"),
      ("transcript", .obj [("verbatim", .str ""), ("readable", .str "")]),
      ("keyTakeaways", .arr [] []), ("quotes", .arr [] [])]) "quotes") = true :=
  (normalizeForUI_array_fields (.obj []) (.obj []) _ rfl).2.2 (Or.inr rfl)

-- ------------------------------ Claim C8 ------------------------------

/-- C8: normalization is idempotent.  Whenever `normalizeForUI` produces a
document, running it again on that document (with the same analysis) returns
the document unchanged. -/
theorem normalizeForUI_idem (s a d : JVal) (h : normalizeForUI s a = some d) :
    normalizeForUI d a = some d := by
  simp only [normalizeForUI] at h ⊢
  set s0 := jsOr s (.obj []) with hs0
  rcases hlt : jsToLowerString (jsOr (getField a "contentType")
      (jsOr (getField s0 "type") (jsOr (getField s0 "category") (.str "general"))))
    with _ | rawType
  · rw [hlt] at h
    simp at h
  rw [hlt] at h
  have hd : d = normalizeForUIBody s0 rawType := by
    injection h with h2
    exact h2.symm
  have htd : truthy d = true := by
    rw [hd, truthy_normalizeForUIBody]
    exact truthy_jsOr_obj s
  rw [jsOr_of_truthy d (.obj []) htd]
  by_cases hobj : objLike s0 = true
  case neg =>
    have hobj' : objLike s0 = false := by simpa using hobj
    have hbody : normalizeForUIBody s0 rawType = s0 :=
      normalizeForUIBody_prim s0 rawType hobj'
    have hd0 : d = s0 := by rw [hd, hbody]
    rw [hd0, hlt]
    show some (normalizeForUIBody s0 rawType) = some s0
    rw [hbody]
  case pos =>
    obtain ⟨hT, hC, hOL, htut, hrec, hstory⟩ := normalizeForUIBody_spec s0 rawType hobj
    rw [← hd] at hT hC hOL htut hrec hstory
    set nt := normTypeOf rawType with hnt
    set Tv := jsOr (getField s0 "type") (.str nt) with hTv
    set Cv := jsOr (getField s0 "category") (.str nt) with hCv
    have htTv : truthy Tv = true := by
      rw [hTv]
      exact truthy_jsOr_right _ _ (by rw [hnt]; exact truthy_str_normTypeOf rawType)
    have htCv : truthy Cv = true := by
      rw [hCv]
      exact truthy_jsOr_right _ _ (by rw [hnt]; exact truthy_str_normTypeOf rawType)
    have hmain : ∃ rt2, jsToLowerString (jsOr (getField a "contentType")
        (jsOr (getField d "type") (jsOr (getField d "category") (.str "general")))) =
          some rt2 ∧ normTypeOf rt2 = nt := by
      by_cases hA : truthy (getField a "contentType") = true
      · refine ⟨rawType, ?_, hnt.symm⟩
        rw [jsOr_of_truthy _ _ hA]
        rw [jsOr_of_truthy _ _ hA] at hlt
        exact hlt
      · have hA' : truthy (getField a "contentType") = false := by simpa using hA
        rw [jsOr_of_not_truthy _ _ hA'] at hlt ⊢
        rw [hT, hC, jsOr_of_truthy _ _ htTv]
        by_cases hT0 : truthy (getField s0 "type") = true
        · refine ⟨rawType, ?_, hnt.symm⟩
          rw [jsOr_of_truthy _ _ hT0] at hlt
          rw [hTv, jsOr_of_truthy _ _ hT0]
          exact hlt
        · have hT0' : truthy (getField s0 "type") = false := by simpa using hT0
          refine ⟨nt, ?_, ?_⟩
          · rw [hTv, jsOr_of_not_truthy _ _ hT0']
            show some (jsLower nt) = some nt
            rw [hnt, jsLower_normTypeOf]
          · rw [hnt]
            exact normTypeOf_idem rawType
    obtain ⟨rt2, hrt2, hnt2⟩ := hmain
    rw [hrt2]
    show some (normalizeForUIBody d rt2) = some d
    refine congrArg some ?_
    simp only [normalizeForUIBody]
    rw [hnt2, hT, jsOr_of_truthy _ _ htTv]
    have e1 : setField d "type" Tv = d := by
      rw [← hT]
      exact setField_getField_of_has _ _ (hasField_of_truthy _ _ (by rw [hT]; exact htTv))
    rw [e1, hC, jsOr_of_truthy _ _ htCv]
    have e2 : setField d "category" Cv = d := by
      rw [← hC]
      exact setField_getField_of_has _ _ (hasField_of_truthy _ _ (by rw [hC]; exact htCv))
    rw [e2, hT]
    have e3 : (if isStrVal Tv "tutorial" = true then normTutorialFields d else d) = d := by
      by_cases hc1 : isStrVal Tv "tutorial" = true
      · rw [if_pos hc1]
        have sh := htut hc1
        exact normTutorialFields_fixed d sh.1 sh.2.1 sh.2.2.1 sh.2.2.2.1 sh.2.2.2.2
      · rw [if_neg hc1]
    rw [e3, hT]
    have e4 : (if isStrVal Tv "recipe" = true then normRecipeFields d else d) = d := by
      by_cases hc2 : isStrVal Tv "recipe" = true
      · rw [if_pos hc2]
        have sh := hrec hc2
        exact normRecipeFields_fixed d sh.1 sh.2.1 sh.2.2.1 sh.2.2.2
      · rw [if_neg hc2]
    rw [e4, hT, hC]
    have e5 : (if (isStrVal Tv "story" || isStrVal Cv "general") = true
        then normStoryFields d else d) = d := by
      by_cases hc3 : (isStrVal Tv "story" || isStrVal Cv "general") = true
      · rw [if_pos hc3]
        have sh := hstory hc3
        exact normStoryFields_fixed d sh.2.2.1 sh.2.2.2.1 sh.2.2.2.2.1 sh.2.2.2.2.2
          sh.1 sh.2.1
      · rw [if_neg hc3]
    rw [e5]

/-- C8 witness: the theorem applied to the already-normalized general
document produced from the empty summary and empty analysis. -/
theorem normalizeForUI_idem_w :
    normalizeForUI (JVal.obj [("type", .str "general"), ("category", .str "general"),
      ("transcript", .obj [("verbatim", .str ""), ("readable", .str "")]),
      ("keyTakeaways", .arr [] []), ("quotes", .arr [] [])]) (.obj []) =
    some (JVal.obj [("type", .str "general"), ("category", .str "general"),
      ("transcript", .obj [("verbatim", .str ""), ("readable", .str "")]),
      ("keyTakeaways", .arr [] []), ("quotes", .arr [] [])]) :=
  normalizeForUI_idem (.obj []) (.obj []) _ rfl

end VideoWorker
